import Mathlib

/-!
Verification of the nabia key-value engine (src/core/engine/engine.go).

The engine keeps a concurrent map from string keys to records (a byte
payload plus a Content-Type string), validates records on Write, and
persists the whole map with encoding/gob to a single snapshot file.

The embedding below is sequential: each Go method that mutates its
receiver is a Lean function that returns the updated state, and the file
system is explicit state (a map from location to file content).  Bytes
are modelled as Nat.  A Go nil byte slice is `none`; a non-nil slice of
bytes b is `some b`.  I/O faults other than a missing file are not
modelled: in this model os.Create and file writes always succeed.
-/

abbrev Byte := Nat

/-- NabiaRecord from engine.go: RawData []byte, ContentType string.
A nil RawData slice is `none`; an allocated (possibly empty) slice is
`some bytes`. -/
structure NabiaRecord where
  RawData : Option (List Byte)
  ContentType : String
deriving DecidableEq, Repr

/-- The error values produced inside the engine, one constructor per
fmt.Errorf site plus the os-level open failure.  The Go code returns
these as opaque error strings; the constructor names follow the spec
taxonomy. -/
inductive EngineError where
  | keyNotFound (key : String)
  | emptyKey
  | nilPayload
  | emptyContentType
  | invalidContentType
  | fileNotFound (location : String)
  | corruptSnapshot
deriving DecidableEq, Repr

/-- Association-list model of the contents of the sync.Map.  The Go map
stores a pointer per key; at the value level only the pointed-to record
matters, so entries carry the record itself. -/
abbrev RecordMap := List (String × NabiaRecord)

/-- sync.Map.Load: first binding for the key, if any. -/
def loadKV (key : String) : List (String × NabiaRecord) → Option NabiaRecord
  | [] => none
  | (k, v) :: rest => if k = key then some v else loadKV key rest

/-- sync.Map.Store: replace the binding for the key, or append it. -/
def storeKV (key : String) (value : NabiaRecord) :
    List (String × NabiaRecord) → List (String × NabiaRecord)
  | [] => [(key, value)]
  | (k, v) :: rest =>
      if k = key then (key, value) :: rest else (k, v) :: storeKV key value rest

/-- sync.Map.Delete: drop the binding for the key, if present. -/
def deleteKV (key : String) :
    List (String × NabiaRecord) → List (String × NabiaRecord)
  | [] => []
  | (k, v) :: rest => if k = key then rest else (k, v) :: deleteKV key rest

/-- NabiaDB from engine.go: the record map and the persistence location. -/
structure NabiaDB where
  Records : RecordMap
  location : String
deriving DecidableEq, Repr

/-- The character class [a-zA-Z0-9] of the Content-Type pattern. -/
def isAlnumChar (c : Char) : Bool :=
  c.isAlpha || c.isDigit

/-- Drop the maximal leading run of [a-zA-Z0-9] characters. -/
def dropAlnum : List Char → List Char
  | [] => []
  | c :: cs => if isAlnumChar c then dropAlnum cs else c :: cs

/-- regexp.MatchString with the pattern from Write, anchored at the
start and unanchored at the end: the string must begin with one or more
alphanumeric characters, then a slash, then at least one alphanumeric
character; anything may follow. -/
def matchesMediaTypePattern (s : String) : Bool :=
  match s.toList with
  | [] => false
  | c :: cs =>
      if isAlnumChar c then
        match dropAlnum cs with
        | '/' :: d :: _ => isAlnumChar d
        | _ => false
      else false

/-- NabiaDB.Exists (engine.go lines 77-80). -/
def NabiaDB.Exists (ns : NabiaDB) (key : String) : Bool :=
  (loadKV key ns.Records).isSome

/-- NabiaDB.Read (engine.go lines 87-94): on a hit the stored record is
returned by value (the struct behind the pointer is copied); on a miss
the zero-value record is returned together with an error. -/
def NabiaDB.Read (ns : NabiaDB) (key : String) : NabiaRecord × Option EngineError :=
  match loadKV key ns.Records with
  | some record => (record, none)
  | none => (⟨none, ""⟩, some (EngineError.keyNotFound key))

/-- NabiaDB.Write (engine.go lines 99-117): four checks in order, then
Store.  The pair returned is the Go error value together with the
receiver state after the call. -/
def NabiaDB.Write (ns : NabiaDB) (key : String) (value : NabiaRecord) :
    Option EngineError × NabiaDB :=
  if key = "" then (some EngineError.emptyKey, ns)
  else if value.RawData = none then (some EngineError.nilPayload, ns)
  else if value.ContentType = "" then (some EngineError.emptyContentType, ns)
  else if matchesMediaTypePattern value.ContentType = false then
    (some EngineError.invalidContentType, ns)
  else (none, ⟨storeKV key value ns.Records, ns.location⟩)

/-- NabiaDB.Destroy (engine.go lines 122-124). -/
def NabiaDB.Destroy (ns : NabiaDB) (key : String) : NabiaDB :=
  ⟨deleteKV key ns.Records, ns.location⟩

/-- The spec validator rules for a candidate (key, record) pair, in the
order Write checks them.  Declared separately from Write so the stored
invariant can be stated; agreement with Write is proved below. -/
def validPair (key : String) (r : NabiaRecord) : Bool :=
  if key = "" then false
  else if r.RawData = none then false
  else if r.ContentType = "" then false
  else matchesMediaTypePattern r.ContentType

/-- The spec invariant: every binding held by the store passes the
validator. -/
def StoreValid (m : RecordMap) : Bool :=
  m.all fun kv => validPair kv.1 kv.2

/-- What a file at some location can hold, as far as the gob decoder is
concerned: the zero-length file os.Create leaves behind, a well-formed
gob stream for map[string]*NabiaRecord that decodes to the given
entries, or bytes the decoder rejects. -/
inductive FileContent where
  | emptyFile
  | encoded (entries : List (String × NabiaRecord))
  | garbage
deriving DecidableEq, Repr

/-- The modelled file system: contents by location, absent files are
`none`. -/
abbrev FS := String → Option FileContent

/-- encoding/gob omits struct fields that hold the zero value of their
type, and the decoder leaves omitted fields at their zero value.  For a
[]byte field the zero test is length zero, so a record saved with an
explicitly-empty payload decodes with a nil payload.  Zero strings are
omitted too but decode back to the empty string, the identity. -/
def gobNormalizeRecord (r : NabiaRecord) : NabiaRecord :=
  ⟨match r.RawData with
    | some [] => none
    | other => other,
   r.ContentType⟩

/-- The entries a gob stream written from the given map decodes back to. -/
def gobEncodeEntries (m : RecordMap) : List (String × NabiaRecord) :=
  m.map fun kv => (kv.1, gobNormalizeRecord kv.2)

/-- NabiaDB.saveToFile (engine.go lines 130-152): overwrite the file
with the gob encoding of the whole map.  File writes cannot fail in
this model, so the Go error result is omitted. -/
def NabiaDB.saveToFile (ns : NabiaDB) (filename : String) (fs : FS) : FS :=
  fun loc =>
    if loc = filename then some (FileContent.encoded (gobEncodeEntries ns.Records))
    else fs loc

/-- The loop of loadFromFile: for each decoded entry, sync.Map.Store. -/
def hydrate (entries : List (String × NabiaRecord)) (m : RecordMap) : RecordMap :=
  match entries with
  | [] => m
  | (k, v) :: rest => hydrate rest (storeKV k v m)

/-- NabiaDB.loadFromFile (engine.go lines 154-177): open the file,
decode the map, then store every decoded entry.  The decoded records go
into the map with no validation.  On any failure the receiver is
unchanged. -/
def NabiaDB.loadFromFile (ns : NabiaDB) (filename : String) (fs : FS) :
    Option EngineError × NabiaDB :=
  match fs filename with
  | none => (some (EngineError.fileNotFound filename), ns)
  | some FileContent.emptyFile => (some EngineError.corruptSnapshot, ns)
  | some FileContent.garbage => (some EngineError.corruptSnapshot, ns)
  | some (FileContent.encoded entries) =>
      (none, ⟨hydrate entries ns.Records, ns.location⟩)

/-- checkOrCreateFile (engine.go lines 36-55): report whether the file
exists; if not, os.Create leaves a zero-length file.  The os.Stat and
os.Create failure paths are not modelled. -/
def checkOrCreateFile (location : String) (fs : FS) : Bool × FS :=
  if (fs location).isSome then (true, fs)
  else (false, fun loc => if loc = location then some FileContent.emptyFile else fs loc)

/-- NewNabiaDB (engine.go lines 57-71).  When the file exists the call
`ndb.loadFromFile(location)` stands alone on line 64: its error result
is discarded, so construction succeeds whatever the load outcome.  When
the file does not exist, saveToFile writes the empty snapshot; in Go a
failure there would hit log.Fatalf, which cannot happen in this model
because modelled writes always succeed. -/
def NewNabiaDB (location : String) (fs : FS) : Except EngineError (NabiaDB × FS) :=
  let checked := checkOrCreateFile location fs
  let ndb : NabiaDB := ⟨[], location⟩
  if checked.1 then
    Except.ok ((NabiaDB.loadFromFile ndb location checked.2).2, checked.2)
  else
    Except.ok (ndb, NabiaDB.saveToFile ndb location checked.2)

/-!
Heap-level model for the ownership claim about Read.

In Go the map stores a *NabiaRecord and Read returns the dereferenced
struct, a copy.  That copy is shallow: RawData is a slice header, so the
copy and the stored record share one backing byte array.  Here records
hold a reference into an explicit heap of byte arrays and Read returns
the struct with the same reference, exactly as the Go copy does.
-/

/-- A record as stored at the heap level: the payload field is a
reference to a backing byte array (none for a nil slice). -/
structure HRecord where
  RawData : Option Nat
  ContentType : String
deriving DecidableEq, Repr

/-- sync.Map.Load at the heap level. -/
def loadHKV (key : String) : List (String × HRecord) → Option HRecord
  | [] => none
  | (k, v) :: rest => if k = key then some v else loadHKV key rest

/-- sync.Map.Store at the heap level. -/
def storeHKV (key : String) (value : HRecord) :
    List (String × HRecord) → List (String × HRecord)
  | [] => [(key, value)]
  | (k, v) :: rest =>
      if k = key then (key, value) :: rest else (k, v) :: storeHKV key value rest

/-- The store together with the heap of backing byte arrays. -/
structure HState where
  Records : List (String × HRecord)
  heap : Nat → List Byte

/-- Read at the heap level: the returned struct copy carries the same
RawData reference as the stored record. -/
def HState.Read (st : HState) (key : String) : HRecord × Option EngineError :=
  match loadHKV key st.Records with
  | some record => (record, none)
  | none => (⟨none, ""⟩, some (EngineError.keyNotFound key))

/-- Write at the heap level, with the same four validation checks; the
stored record keeps the RawData reference of the argument. -/
def HState.Write (st : HState) (key : String) (value : HRecord) :
    Option EngineError × HState :=
  if key = "" then (some EngineError.emptyKey, st)
  else if value.RawData = none then (some EngineError.nilPayload, st)
  else if value.ContentType = "" then (some EngineError.emptyContentType, st)
  else if matchesMediaTypePattern value.ContentType = false then
    (some EngineError.invalidContentType, st)
  else (none, ⟨storeHKV key value st.Records, st.heap⟩)

/-- A caller statement rec.RawData[index] = b on a record whose RawData
reference is ref: the backing array in the heap is updated in place. -/
def setByteInSlice (st : HState) (ref index b : Nat) : HState :=
  ⟨st.Records, fun j => if j = ref then (st.heap ref).set index b else st.heap j⟩

/-- The payload bytes an observer sees for a record under a given state. -/
def observedBytes (st : HState) (r : HRecord) : Option (List Byte) :=
  r.RawData.map st.heap

/-!  Concrete inputs used by the closed theorems below.  -/

/-- A valid record: payload bytes 86, 97, media type text/plain. -/
def rPlain : NabiaRecord := ⟨some [86, 97], "text/plain"⟩

/-- A file system whose only file, at nabia.db, holds undecodable bytes. -/
def fsCorrupt : FS :=
  fun loc => if loc = "nabia.db" then some FileContent.garbage else none

/-- A file system whose only file, at data.db, holds undecodable bytes. -/
def fsBadBytes : FS :=
  fun loc => if loc = "data.db" then some FileContent.garbage else none

/-- A file system whose only file holds a decodable snapshot with one
record that fails every payload and media-type rule. -/
def fsInvalidRecord : FS :=
  fun loc =>
    if loc = "store.db" then some (FileContent.encoded [("k", ⟨none, ""⟩)]) else none

/-- A file system whose only file holds a decodable snapshot with one
valid record. -/
def fsEnc : FS :=
  fun loc => if loc = "a.db" then some (FileContent.encoded [("k", rPlain)]) else none

/-- A store holding one record whose payload is explicitly empty. -/
def dbEmptyPayload : NabiaDB := ⟨[("k", ⟨some [], "text/plain"⟩)], "t.db"⟩

/-- A populated store used to instantiate the round-trip theorem. -/
def dbPlain : NabiaDB := ⟨[("k", rPlain)], "t.db"⟩

/-- A heap-level state: one key, whose payload references array 0, with
bytes 1, 2 in every array of the heap. -/
def heapState0 : HState := ⟨[("k", ⟨some 0, "text/plain"⟩)], fun _ => [1, 2]⟩

theorem matches_text_plain : matchesMediaTypePattern "text/plain" = true := by decide

/-!  Helper lemmas about the map model.  -/

theorem loadKV_storeKV (key k2 : String) (value : NabiaRecord)
    (m : List (String × NabiaRecord)) :
    loadKV k2 (storeKV key value m) = if k2 = key then some value else loadKV k2 m := by
  induction m with
  | nil =>
      by_cases h : k2 = key
      · simp [storeKV, loadKV, h]
      · have h2 : ¬(key = k2) := fun h3 => h h3.symm
        simp [storeKV, loadKV, h, h2]
  | cons kv rest ih =>
      obtain ⟨k, v⟩ := kv
      by_cases hk : k = key
      · subst hk
        by_cases h : k2 = k
        · subst h
          simp [storeKV, loadKV]
        · have h2 : ¬(k = k2) := fun h3 => h h3.symm
          simp [storeKV, loadKV, h, h2]
      · by_cases h : k = k2
        · subst h
          simp [storeKV, loadKV, hk]
        · simp [storeKV, loadKV, hk, h, ih]

theorem loadKV_eq_none_of_not_mem (key : String) (m : List (String × NabiaRecord))
    (h : key ∉ m.map Prod.fst) : loadKV key m = none := by
  induction m with
  | nil => rfl
  | cons kv rest ih =>
      obtain ⟨k, v⟩ := kv
      have h1 : ¬(k = key) := by
        intro h2
        exact h (by simp [h2])
      have h2 : key ∉ rest.map Prod.fst := by
        intro h3
        exact h (by simp [h3])
      simp [loadKV, h1, ih h2]

theorem loadKV_hydrate (entries : List (String × NabiaRecord)) (m : RecordMap)
    (key : String) (h : (entries.map Prod.fst).Nodup) :
    loadKV key (hydrate entries m) =
      match loadKV key entries with
      | some v => some v
      | none => loadKV key m := by
  induction entries generalizing m with
  | nil => rfl
  | cons kv rest ih =>
      obtain ⟨k, v⟩ := kv
      simp only [List.map_cons, List.nodup_cons] at h
      by_cases hk : k = key
      · subst hk
        have hnone : loadKV k rest = none :=
          loadKV_eq_none_of_not_mem k rest h.1
        simp [hydrate, loadKV, ih _ h.2, hnone, loadKV_storeKV]
      · simp only [hydrate, loadKV, if_neg hk, ih _ h.2, loadKV_storeKV]
        cases loadKV key rest with
        | some v2 => simp
        | none =>
            have h2 : ¬(key = k) := fun h3 => hk h3.symm
            simp [h2]

theorem loadKV_gobEncodeEntries (m : RecordMap) (key : String) :
    loadKV key (gobEncodeEntries m) = (loadKV key m).map gobNormalizeRecord := by
  induction m with
  | nil => rfl
  | cons kv rest ih =>
      obtain ⟨k, v⟩ := kv
      by_cases hk : k = key
      · simp [gobEncodeEntries, loadKV, hk]
      · simp only [gobEncodeEntries, List.map_cons, loadKV, if_neg hk]
        simpa [gobEncodeEntries] using ih

theorem keys_gobEncodeEntries (m : RecordMap) :
    (gobEncodeEntries m).map Prod.fst = m.map Prod.fst := by
  induction m with
  | nil => rfl
  | cons kv rest ih => simp [gobEncodeEntries, ih]

theorem StoreValid_storeKV (key : String) (value : NabiaRecord) (m : RecordMap)
    (hm : StoreValid m = true) (hv : validPair key value = true) :
    StoreValid (storeKV key value m) = true := by
  induction m with
  | nil => simp [StoreValid, storeKV, hv]
  | cons kv rest ih =>
      obtain ⟨k, v⟩ := kv
      simp only [StoreValid, List.all_cons, Bool.and_eq_true] at hm
      by_cases hk : k = key
      · simp [StoreValid, storeKV, hk, hv, hm.2]
      · have h2 := ih hm.2
        simp only [StoreValid] at h2
        simp [StoreValid, storeKV, hk, hm.1, h2]

theorem StoreValid_deleteKV (key : String) (m : RecordMap)
    (hm : StoreValid m = true) : StoreValid (deleteKV key m) = true := by
  induction m with
  | nil => simp [StoreValid, deleteKV]
  | cons kv rest ih =>
      obtain ⟨k, v⟩ := kv
      simp only [StoreValid, List.all_cons, Bool.and_eq_true] at hm
      have h2 := ih hm.2
      simp only [StoreValid] at h2
      by_cases hk : k = key
      · simp [StoreValid, deleteKV, hk, hm.2]
      · simp [StoreValid, deleteKV, hk, hm.1, h2]

theorem mem_of_loadKV_eq_some (key : String) (r : NabiaRecord) (m : RecordMap)
    (h : loadKV key m = some r) : (key, r) ∈ m := by
  induction m with
  | nil => simp [loadKV] at h
  | cons kv rest ih =>
      obtain ⟨k, v⟩ := kv
      by_cases hk : k = key
      · subst hk
        simp [loadKV] at h
        simp [h]
      · simp only [loadKV, if_neg hk] at h
        exact List.mem_cons_of_mem _ (ih h)

theorem gobNormalizeRecord_eq_self (r : NabiaRecord)
    (h : r.RawData ≠ some ([] : List Byte)) : gobNormalizeRecord r = r := by
  obtain ⟨d, ct⟩ := r
  cases d with
  | none => rfl
  | some l =>
      cases l with
      | nil => simp at h
      | cons b bs => rfl

theorem write_ok_state (ns : NabiaDB) (key : String) (value : NabiaRecord)
    (h : (ns.Write key value).1 = none) :
    (ns.Write key value).2 = ⟨storeKV key value ns.Records, ns.location⟩ := by
  unfold NabiaDB.Write at h ⊢
  split_ifs at h ⊢
  all_goals simp_all

theorem write_err_state (ns : NabiaDB) (key : String) (value : NabiaRecord)
    (e : EngineError) (h : (ns.Write key value).1 = some e) :
    (ns.Write key value).2 = ns := by
  unfold NabiaDB.Write at h ⊢
  split_ifs at h ⊢
  all_goals simp_all

theorem write_ok_valid (ns : NabiaDB) (key : String) (value : NabiaRecord)
    (h : (ns.Write key value).1 = none) : validPair key value = true := by
  unfold NabiaDB.Write at h
  unfold validPair
  split_ifs at h ⊢
  all_goals simp_all

theorem loadHKV_of_read_hit (st : HState) (key : String) (rec : HRecord)
    (h : st.Read key = (rec, none)) : loadHKV key st.Records = some rec := by
  unfold HState.Read at h
  cases e : loadHKV key st.Records with
  | none => rw [e] at h; simp at h
  | some r => rw [e] at h; simp at h; rw [h]

/-!  Claims.  -/

/-- C1.  The claim says construction against an undecodable snapshot
fails with a CorruptSnapshot error.  The code disagrees: on line 64 of
engine.go the error result of `ndb.loadFromFile(location)` is discarded,
so NewNabiaDB returns a fresh empty store and a nil error even though
the load failed with the decode error.  This theorem evaluates both
facts at a file system whose file at nabia.db holds undecodable bytes. -/
theorem newNabiaDB_ignores_corrupt_snapshot :
    (NabiaDB.loadFromFile ⟨[], "nabia.db"⟩ "nabia.db" fsCorrupt).1
      = some EngineError.corruptSnapshot ∧
    NewNabiaDB "nabia.db" fsCorrupt = Except.ok (⟨[], "nabia.db"⟩, fsCorrupt) :=
  ⟨rfl, rfl⟩

/-- C8 counterexample.  An error arising inside the core (the
CorruptSnapshot failure of loadFromFile) is not returned to the
immediate caller of NewNabiaDB: construction succeeds with a nil
error, refuting the claim that no error is swallowed. -/
theorem construction_swallows_load_error :
    (NabiaDB.loadFromFile ⟨[], "data.db"⟩ "data.db" fsBadBytes).1
      = some EngineError.corruptSnapshot ∧
    NewNabiaDB "data.db" fsBadBytes = Except.ok (⟨[], "data.db"⟩, fsBadBytes) :=
  ⟨rfl, rfl⟩

/-- C2 counterexample.  A decodable snapshot can hold a record that
fails every payload and media-type rule; loadFromFile stores it without
validation, so right after construction the store contains an invalid
record, refuting the claim that the validator invariant is preserved by
construction and load. -/
theorem load_hydrates_invalid_record :
    NewNabiaDB "store.db" fsInvalidRecord
      = Except.ok (⟨[("k", ⟨none, ""⟩)], "store.db"⟩, fsInvalidRecord) ∧
    StoreValid [("k", (⟨none, ""⟩ : NabiaRecord))] = false :=
  ⟨rfl, rfl⟩

/-- C3 counterexample.  A record with an explicitly-empty payload is
accepted by Write, but gob omits zero-length slice fields, so after
Save followed by Load the record comes back with an absent (nil)
payload: the reloaded mapping differs from the original at key k, and
the reloaded record would now fail validation. -/
theorem roundtrip_drops_empty_payload :
    NabiaDB.Write ⟨[], "t.db"⟩ "k" ⟨some [], "text/plain"⟩ = (none, dbEmptyPayload) ∧
    NewNabiaDB "t.db" (dbEmptyPayload.saveToFile "t.db" (fun _ => none))
      = Except.ok (⟨[("k", ⟨none, "text/plain"⟩)], "t.db"⟩,
          dbEmptyPayload.saveToFile "t.db" (fun _ => none)) ∧
    loadKV "k" [("k", (⟨none, "text/plain"⟩ : NabiaRecord))]
      ≠ loadKV "k" dbEmptyPayload.Records ∧
    validPair "k" ⟨none, "text/plain"⟩ = false :=
  ⟨rfl, rfl, by decide, rfl⟩

/-- C3 amended.  Save followed by constructing a new Store via Load
against the same target reproduces the original mapping up to the gob
zero-value normalization: every key is kept with its media type, and a
payload survives byte for byte unless it was explicitly empty, in which
case it comes back absent.  When no stored payload is explicitly empty
the reloaded mapping is identical. -/
theorem save_load_roundtrip (ns : NabiaDB) (fs : FS) (key : String)
    (hnd : (ns.Records.map Prod.fst).Nodup) :
    NewNabiaDB ns.location (ns.saveToFile ns.location fs)
      = Except.ok (⟨hydrate (gobEncodeEntries ns.Records) [], ns.location⟩,
          ns.saveToFile ns.location fs) ∧
    loadKV key (hydrate (gobEncodeEntries ns.Records) [])
      = (loadKV key ns.Records).map gobNormalizeRecord ∧
    ((∀ kv, kv ∈ ns.Records → kv.2.RawData ≠ some ([] : List Byte)) →
      loadKV key (hydrate (gobEncodeEntries ns.Records) [])
        = loadKV key ns.Records) := by
  have hkeys : ((gobEncodeEntries ns.Records).map Prod.fst).Nodup := by
    rw [keys_gobEncodeEntries]
    exact hnd
  have hload : loadKV key (hydrate (gobEncodeEntries ns.Records) [])
      = (loadKV key ns.Records).map gobNormalizeRecord := by
    rw [loadKV_hydrate _ _ _ hkeys, loadKV_gobEncodeEntries]
    cases loadKV key ns.Records with
    | none => rfl
    | some r => rfl
  refine ⟨?_, hload, ?_⟩
  · simp [NewNabiaDB, checkOrCreateFile, NabiaDB.saveToFile, NabiaDB.loadFromFile]
  · intro hne
    rw [hload]
    cases e : loadKV key ns.Records with
    | none => rfl
    | some r =>
        have hr : (key, r) ∈ ns.Records := mem_of_loadKV_eq_some key r ns.Records e
        simp [gobNormalizeRecord_eq_self r (hne (key, r) hr)]

/-- Witness for the amended round-trip theorem at a concrete populated
store with a non-empty payload. -/
theorem save_load_roundtrip_witness :
    NewNabiaDB dbPlain.location (dbPlain.saveToFile dbPlain.location (fun _ => none))
      = Except.ok (⟨hydrate (gobEncodeEntries dbPlain.Records) [], dbPlain.location⟩,
          dbPlain.saveToFile dbPlain.location (fun _ => none)) ∧
    loadKV "k" (hydrate (gobEncodeEntries dbPlain.Records) [])
      = (loadKV "k" dbPlain.Records).map gobNormalizeRecord ∧
    loadKV "k" (hydrate (gobEncodeEntries dbPlain.Records) [])
      = loadKV "k" dbPlain.Records := by
  have h := save_load_roundtrip dbPlain (fun _ => none) "k" (by decide)
  exact ⟨h.1, h.2.1, h.2.2 (by decide)⟩

/-- C4 counterexample.  A record written through the validated Write
and then returned by Read shares its payload backing array with the
store: after the caller writes 9 into index 0 of the returned payload,
a subsequent Read of the same key observes bytes 9, 2 instead of the
originally stored 1, 2. -/
theorem read_aliases_stored_payload :
    HState.Write ⟨[], fun _ => [1, 2]⟩ "k" ⟨some 0, "text/plain"⟩
      = (none, heapState0) ∧
    heapState0.Read "k" = (⟨some 0, "text/plain"⟩, none) ∧
    observedBytes heapState0 ⟨some 0, "text/plain"⟩ = some [1, 2] ∧
    observedBytes (setByteInSlice heapState0 0 0 9)
        ((setByteInSlice heapState0 0 0 9).Read "k").1 = some [9, 2] :=
  ⟨rfl, rfl, rfl, rfl⟩

/-- C4 amended.  Read returns a shallow copy: the record value handed
back is independent of the store (the key map and every stored record
struct are untouched by anything the caller does to its copy), but the
payload slice header is shared, so a caller byte-write through the
returned payload is visible to every later Read of that key. -/
theorem read_returns_shallow_copy (st : HState) (key : String) (rec : HRecord)
    (ref index b : Nat) (hread : st.Read key = (rec, none))
    (href : rec.RawData = some ref) :
    (setByteInSlice st ref index b).Records = st.Records ∧
    (setByteInSlice st ref index b).Read key = (rec, none) ∧
    observedBytes (setByteInSlice st ref index b) rec
      = some ((st.heap ref).set index b) := by
  have hl : loadHKV key st.Records = some rec := loadHKV_of_read_hit st key rec hread
  refine ⟨rfl, ?_, ?_⟩
  · unfold HState.Read
    unfold setByteInSlice
    simp [hl]
  · unfold observedBytes setByteInSlice
    simp [href]

/-- Witness for the shallow-copy theorem at the concrete heap state. -/
theorem read_returns_shallow_copy_witness :
    (setByteInSlice heapState0 0 0 9).Records = heapState0.Records ∧
    (setByteInSlice heapState0 0 0 9).Read "k" = (⟨some 0, "text/plain"⟩, none) ∧
    observedBytes (setByteInSlice heapState0 0 0 9) ⟨some 0, "text/plain"⟩
      = some ((heapState0.heap 0).set 0 9) :=
  read_returns_shallow_copy heapState0 "k" ⟨some 0, "text/plain"⟩ 0 0 9 rfl rfl

/-- C5.  Whenever Write returns a validation failure, the store is
exactly as it was: the whole state is unchanged, and in particular
Exists and Read at every key give the pre-call answers. -/
theorem write_failure_no_mutation (ns : NabiaDB) (key k2 : String)
    (value : NabiaRecord) (e : EngineError)
    (h : (ns.Write key value).1 = some e) :
    (ns.Write key value).2 = ns ∧
    (ns.Write key value).2.Exists k2 = ns.Exists k2 ∧
    (ns.Write key value).2.Read k2 = ns.Read k2 := by
  have h2 := write_err_state ns key value e h
  exact ⟨h2, by rw [h2], by rw [h2]⟩

/-- Witness for the no-mutation theorem: writing under an empty key to
a one-record store fails with EmptyKey and changes nothing. -/
theorem write_failure_no_mutation_witness :
    (dbPlain.Write "" rPlain).2 = dbPlain ∧
    (dbPlain.Write "" rPlain).2.Exists "k" = dbPlain.Exists "k" ∧
    (dbPlain.Write "" rPlain).2.Read "k" = dbPlain.Read "k" :=
  write_failure_no_mutation dbPlain "" "k" rPlain EngineError.emptyKey (by decide)

/-- C6.  Characterization of the validation outcome of Write: the four
rules are checked in the fixed order empty key, nil payload, empty
Content-Type, pattern mismatch, the first failing rule names the error,
and Write succeeds exactly when every rule passes. -/
theorem write_validation_order (ns : NabiaDB) (key : String) (value : NabiaRecord) :
    ((ns.Write key value).1 = some EngineError.emptyKey ↔ key = "") ∧
    ((ns.Write key value).1 = some EngineError.nilPayload ↔
      (key ≠ "" ∧ value.RawData = none)) ∧
    ((ns.Write key value).1 = some EngineError.emptyContentType ↔
      (key ≠ "" ∧ value.RawData ≠ none ∧ value.ContentType = "")) ∧
    ((ns.Write key value).1 = some EngineError.invalidContentType ↔
      (key ≠ "" ∧ value.RawData ≠ none ∧ value.ContentType ≠ "" ∧
        matchesMediaTypePattern value.ContentType = false)) ∧
    ((ns.Write key value).1 = none ↔
      (key ≠ "" ∧ value.RawData ≠ none ∧ value.ContentType ≠ "" ∧
        matchesMediaTypePattern value.ContentType = true)) := by
  by_cases h1 : key = ""
  · simp [NabiaDB.Write, h1]
  · by_cases h2 : value.RawData = none
    · simp [NabiaDB.Write, h1, h2]
    · by_cases h3 : value.ContentType = ""
      · simp [NabiaDB.Write, h1, h2, h3]
      · by_cases h4 : matchesMediaTypePattern value.ContentType = false
        · simp [NabiaDB.Write, h1, h2, h3, h4]
        · simp only [Bool.not_eq_false] at h4
          simp [NabiaDB.Write, h1, h2, h3, h4]

/-- Witness for the validation-order characterization, at a record that
passes every rule. -/
theorem write_validation_order_witness :
    ((dbPlain.Write "k2" rPlain).1 = some EngineError.emptyKey ↔ "k2" = "") ∧
    ((dbPlain.Write "k2" rPlain).1 = some EngineError.nilPayload ↔
      ("k2" ≠ "" ∧ rPlain.RawData = none)) ∧
    ((dbPlain.Write "k2" rPlain).1 = some EngineError.emptyContentType ↔
      ("k2" ≠ "" ∧ rPlain.RawData ≠ none ∧ rPlain.ContentType = "")) ∧
    ((dbPlain.Write "k2" rPlain).1 = some EngineError.invalidContentType ↔
      ("k2" ≠ "" ∧ rPlain.RawData ≠ none ∧ rPlain.ContentType ≠ "" ∧
        matchesMediaTypePattern rPlain.ContentType = false)) ∧
    ((dbPlain.Write "k2" rPlain).1 = none ↔
      ("k2" ≠ "" ∧ rPlain.RawData ≠ none ∧ rPlain.ContentType ≠ "" ∧
        matchesMediaTypePattern rPlain.ContentType = true)) :=
  write_validation_order dbPlain "k2" rPlain

/-- C7.  After a successful Write the key exists and Read returns the
written record; a successful overwrite fully replaces the prior record,
so the second Write wins with both fields taken from it. -/
theorem write_then_read_and_overwrite (ns : NabiaDB) (key : String)
    (r r1 r2 : NabiaRecord)
    (h : (ns.Write key r).1 = none)
    (h2 : ((ns.Write key r1).2.Write key r2).1 = none) :
    (ns.Write key r).2.Exists key = true ∧
    (ns.Write key r).2.Read key = (r, none) ∧
    ((ns.Write key r1).2.Write key r2).2.Read key = (r2, none) := by
  have hs := write_ok_state ns key r h
  have hs2 := write_ok_state (ns.Write key r1).2 key r2 h2
  refine ⟨?_, ?_, ?_⟩
  · rw [hs]
    simp [NabiaDB.Exists, loadKV_storeKV]
  · rw [hs]
    simp [NabiaDB.Read, loadKV_storeKV]
  · rw [hs2]
    simp [NabiaDB.Read, loadKV_storeKV]

/-- Witness for the write-read-overwrite theorem: write bytes 86, 97 as
text/plain, overwrite with byte 2 as application/json, read back the
second record. -/
theorem write_then_read_and_overwrite_witness :
    ((⟨[], "t.db"⟩ : NabiaDB).Write "A" rPlain).2.Exists "A" = true ∧
    ((⟨[], "t.db"⟩ : NabiaDB).Write "A" rPlain).2.Read "A" = (rPlain, none) ∧
    (((⟨[], "t.db"⟩ : NabiaDB).Write "A" rPlain).2.Write "A"
        ⟨some [2], "application/json"⟩).2.Read "A"
      = (⟨some [2], "application/json"⟩, none) :=
  write_then_read_and_overwrite ⟨[], "t.db"⟩ "A" rPlain rPlain
    ⟨some [2], "application/json"⟩ (by decide) (by decide)

/-- C2 amended.  The validator invariant is preserved by the CRUD
surface: if every stored record is valid, it stays so across any Write
(successful or failing) and any Destroy.  Construction is the
exception the counterexample exhibits: loadFromFile stores decoded
records without validation. -/
theorem write_destroy_preserve_validity (ns : NabiaDB) (key : String)
    (value : NabiaRecord) (h : StoreValid ns.Records = true) :
    StoreValid (ns.Write key value).2.Records = true ∧
    StoreValid (ns.Destroy key).Records = true := by
  constructor
  · cases e : (ns.Write key value).1 with
    | some err => rw [write_err_state ns key value err e]; exact h
    | none =>
        rw [write_ok_state ns key value e]
        exact StoreValid_storeKV key value ns.Records h (write_ok_valid ns key value e)
  · exact StoreValid_deleteKV key ns.Records h

/-- Witness for invariant preservation at a concrete valid store. -/
theorem write_destroy_preserve_validity_witness :
    StoreValid (dbPlain.Write "k2" rPlain).2.Records = true ∧
    StoreValid (dbPlain.Destroy "k").Records = true :=
  write_destroy_preserve_validity dbPlain "k2" rPlain (by decide)

/-- C9.  Construction policy: an existing decodable target is loaded
and the store is hydrated with its entries; a missing target is created
and the empty snapshot is written to it at once; and whenever
construction succeeds the target exists in the resulting file system. -/
theorem construction_policy (location : String) (fs : FS)
    (entries : List (String × NabiaRecord)) (key : String)
    (hnd : (entries.map Prod.fst).Nodup) :
    (fs location = some (FileContent.encoded entries) →
      NewNabiaDB location fs = Except.ok (⟨hydrate entries [], location⟩, fs) ∧
      loadKV key (hydrate entries []) = loadKV key entries) ∧
    (fs location = none →
      NewNabiaDB location fs
        = Except.ok (⟨[], location⟩,
            NabiaDB.saveToFile ⟨[], location⟩ location
              ((checkOrCreateFile location fs).2)) ∧
      NabiaDB.saveToFile ⟨[], location⟩ location ((checkOrCreateFile location fs).2)
          location = some (FileContent.encoded [])) ∧
    (∀ db2 fs2, NewNabiaDB location fs = Except.ok (db2, fs2) →
      (fs2 location).isSome = true) := by
  refine ⟨?_, ?_, ?_⟩
  · intro h
    constructor
    · simp [NewNabiaDB, checkOrCreateFile, h, NabiaDB.loadFromFile]
    · rw [loadKV_hydrate entries [] key hnd]
      cases loadKV key entries with
      | none => rfl
      | some v => rfl
  · intro h
    constructor
    · simp [NewNabiaDB, checkOrCreateFile, h]
    · simp [NabiaDB.saveToFile, gobEncodeEntries]
  · intro db2 fs2 heq
    by_cases hex : (fs location).isSome
    · have hrun : NewNabiaDB location fs
          = Except.ok ((NabiaDB.loadFromFile ⟨[], location⟩ location fs).2, fs) := by
        simp [NewNabiaDB, checkOrCreateFile, hex]
      rw [hrun] at heq
      injection heq with h3
      injection h3 with h4 h5
      rw [← h5]
      exact hex
    · have hrun : NewNabiaDB location fs
          = Except.ok (⟨[], location⟩,
              NabiaDB.saveToFile ⟨[], location⟩ location
                ((checkOrCreateFile location fs).2)) := by
        simp [NewNabiaDB, checkOrCreateFile, hex]
      rw [hrun] at heq
      injection heq with h3
      injection h3 with h4 h5
      rw [← h5]
      simp [NabiaDB.saveToFile]

/-- Witness for the construction policy at an existing decodable
target holding one valid record. -/
theorem construction_policy_witness :
    NewNabiaDB "a.db" fsEnc = Except.ok (⟨hydrate [("k", rPlain)] [], "a.db"⟩, fsEnc) ∧
    loadKV "k" (hydrate [("k", rPlain)] []) = loadKV "k" [("k", rPlain)] ∧
    (fsEnc "a.db").isSome = true := by
  have h := construction_policy "a.db" fsEnc [("k", rPlain)] "k" (by decide)
  have h1 := h.1 rfl
  exact ⟨h1.1, h1.2, h.2.2 ⟨hydrate [("k", rPlain)] [], "a.db"⟩ fsEnc h1.1⟩

/-- C10.  Reading an absent key returns the zero-value record, whose
payload is absent and whose media type is empty, together with a
non-nil error; that record fails validation under any key, so it cannot
be written back as is. -/
theorem read_miss_returns_zero_record (ns : NabiaDB) (key k2 : String)
    (h : ns.Exists key = false) :
    ns.Read key = (⟨none, ""⟩, some (EngineError.keyNotFound key)) ∧
    validPair k2 ⟨none, ""⟩ = false := by
  have hl : loadKV key ns.Records = none := by
    unfold NabiaDB.Exists at h
    cases e : loadKV key ns.Records with
    | none => rfl
    | some r => rw [e] at h; simp at h
  constructor
  · unfold NabiaDB.Read
    rw [hl]
  · unfold validPair
    by_cases h2 : k2 = "" <;> simp [h2]

/-- Witness for the read-miss theorem at a concrete store and key. -/
theorem read_miss_returns_zero_record_witness :
    dbPlain.Read "nope" = (⟨none, ""⟩, some (EngineError.keyNotFound "nope")) ∧
    validPair "x" (⟨none, ""⟩ : NabiaRecord) = false :=
  read_miss_returns_zero_record dbPlain "nope" "x" (by decide)

/-- C8 amended.  Errors produced inside the DB primitives and the
snapshot functions are returned to their immediate caller, with one
construction-time exception: NewNabiaDB discards the error of
loadFromFile and returns success anyway (and a saveToFile failure there
would reach log.Fatalf rather than the caller, a path this fault-free
file-system model cannot exercise). -/
theorem core_error_propagation (ns : NabiaDB) (key location : String)
    (value : NabiaRecord) (fs : FS)
    (hmiss : ns.Exists key = false)
    (hbad : fs location = some FileContent.garbage) :
    (ns.Read key).2 = some (EngineError.keyNotFound key) ∧
    (ns.Write "" value).1 = some EngineError.emptyKey ∧
    (ns.loadFromFile location fs).1 = some EngineError.corruptSnapshot ∧
    NewNabiaDB location fs = Except.ok (⟨[], location⟩, fs) := by
  have hl : loadKV key ns.Records = none := by
    unfold NabiaDB.Exists at hmiss
    cases e : loadKV key ns.Records with
    | none => rfl
    | some r => rw [e] at hmiss; simp at hmiss
  refine ⟨?_, rfl, ?_, ?_⟩
  · unfold NabiaDB.Read
    rw [hl]
  · unfold NabiaDB.loadFromFile
    rw [hbad]
  · have hex : (fs location).isSome = true := by rw [hbad]; rfl
    simp [NewNabiaDB, checkOrCreateFile, hex, NabiaDB.loadFromFile, hbad]

/-- Witness for the propagation theorem at concrete inputs. -/
theorem core_error_propagation_witness :
    (dbPlain.Read "nope2").2 = some (EngineError.keyNotFound "nope2") ∧
    (dbPlain.Write "" rPlain).1 = some EngineError.emptyKey ∧
    (dbPlain.loadFromFile "data.db" fsBadBytes).1 = some EngineError.corruptSnapshot ∧
    NewNabiaDB "data.db" fsBadBytes = Except.ok (⟨[], "data.db"⟩, fsBadBytes) :=
  core_error_propagation dbPlain "nope2" "data.db" rPlain fsBadBytes (by decide) rfl
